import Mathlib

/-!
# Verification of the esp32-energymon-169lcd host tools

Shallow embedding of the host-side image tools of the repository:

* `tools/upload_image.py` — SJPG container serialization (`jpg_to_sjpg`,
  lines 100-134), container parsing (`parse_sjpg`, lines 141-208) and the
  upload helpers (`upload_single_file`, `upload_strips`);
* `tools/camera_to_esp32.py` — the AppDaemon client (`prepare_image`,
  `encode_baseline_jpeg`, `upload_single`, `upload_strips`).

Bytes are modelled as `List Nat` (each entry a byte value).  Python's
`struct.pack('<H', n)` / `struct.unpack('<H', b)` become `u16le` / `read_u16`;
a Python exception becomes `Option`/`Except` failure.  The JPEG pixel encoder
itself (Pillow) is external to the repository and is treated as an opaque
producer of strip byte strings; the container and transfer logic — the part
written in this repository — is embedded faithfully.
-/

namespace Esp32Tools

/-- Magic bytes `"_SJPG__"` written at offset 0 of the container. -/
def sjpgMagic : List Nat := [95, 83, 74, 80, 71, 95, 95]

/-- Version bytes `"\x00V1.00\x00"` written at offset 7. -/
def sjpgVersion : List Nat := [0, 86, 49, 46, 48, 48, 0]

/-- Model of `struct.pack('<H', n)`: two little-endian bytes, failing
(`struct.error`) when the value does not fit an unsigned 16-bit field. -/
def u16le (n : Nat) : Option (List Nat) :=
  if n ≤ 65535 then some [n % 256, n / 256] else none

/-- The two bytes of a u16 little-endian field, as a total function
(used to describe the successful output of `u16le`). -/
def u16pair (n : Nat) : List Nat := [n % 256, n / 256]

/-- Strip-length table serialization loop of `jpg_to_sjpg`
(upload_image.py lines 124-127): each length is checked against the
`0xFFFF` ceiling (`ValueError` on overflow) and packed as a u16. -/
def packTable : List (List Nat) → Option (List Nat)
  | [] => some []
  | s :: rest =>
    if s.length > 65535 then none
    else do
      let entry ← u16le s.length
      let tail ← packTable rest
      some (entry ++ tail)

/-- Container serialization step of `jpg_to_sjpg` (upload_image.py lines
100-134): magic, version, width, height, strip count, strip height, the
per-strip length table, then the concatenated strip payloads.  In
`jpg_to_sjpg` the strip list always has `ceil(height / stripHeight)`
entries; the serializer itself uses only the list it is given, and the
strip count it writes is the length of that list. -/
def sjpgEncode (width height stripHeight : Nat) (strips : List (List Nat)) :
    Option (List Nat) := do
  let wb ← u16le width
  let hb ← u16le height
  let nb ← u16le strips.length
  let sb ← u16le stripHeight
  let table ← packTable strips
  some (sjpgMagic ++ sjpgVersion ++ wb ++ hb ++ nb ++ sb ++ table ++ strips.flatten)

/-- Failure modes of `parse_sjpg`.  `shortRead` is the `struct.error`
raised by `struct.unpack` when a slice has the wrong size; the others are
the explicit `ValueError`s of the function. -/
inductive SjpgError
  | badMagic
  | shortRead
  | headerPastEnd
  | badOffsetTable
  | badLengthTable
deriving DecidableEq, Repr

/-- Model of `struct.unpack('<H', data[pos:pos+2])[0]`: `struct.error`
(here `none`) unless the slice holds exactly two bytes. -/
def read_u16 (data : List Nat) (pos : Nat) : Option Nat :=
  match (data.drop pos).take 2 with
  | [a, b] => some (a + 256 * b)
  | _ => none

/-- Strip-table reading loop of `parse_sjpg` (upload_image.py lines
165-170): `numStrips` u16 reads starting at `pos`, advancing by 2. -/
def readTable (data : List Nat) : Nat → Nat → Option (List Nat)
  | _, 0 => some []
  | pos, n + 1 => do
    let v ← read_u16 data pos
    let rest ← readTable data (pos + 2) n
    some (v :: rest)

/-- Boolean `all(table[i] <= table[i+1] for i in range(num_strips - 1))`. -/
def nondecreasing : List Nat → Bool
  | [] => true
  | [_] => true
  | a :: b :: rest => Nat.ble a b && nondecreasing (b :: rest)

/-- Heuristic of `parse_sjpg` (upload_image.py lines 178-183): the table is
taken to be an offset table when it is nonempty, starts at 0, is
non-decreasing and its last entry fits in the payload. -/
def looksLikeOffsets (table : List Nat) (dataSize : Nat) : Bool :=
  match table with
  | [] => false
  | t0 :: rest =>
    t0 == 0 && nondecreasing (t0 :: rest) && Nat.ble ((t0 :: rest).getLastD 0) dataSize

/-- Offset-table slicing loop of `parse_sjpg` (upload_image.py lines
186-196): strip `i` spans from `headerSize + table[i]` to
`headerSize + table[i+1]` (end of file for the last strip), with the
bounds check of line 194. -/
def sliceOffsets (data : List Nat) (headerSize : Nat) :
    List Nat → Except SjpgError (List (List Nat))
  | [] => .ok []
  | [t] =>
    if headerSize + t > data.length ∨ headerSize + t < headerSize ∨
        data.length > data.length then
      .error .badOffsetTable
    else
      .ok [(data.drop (headerSize + t)).take (data.length - (headerSize + t))]
  | t1 :: t2 :: rest =>
    if headerSize + t1 > headerSize + t2 ∨ headerSize + t1 < headerSize ∨
        headerSize + t2 > data.length then
      .error .badOffsetTable
    else do
      let tail ← sliceOffsets data headerSize (t2 :: rest)
      .ok ((data.drop (headerSize + t1)).take (headerSize + t2 - (headerSize + t1)) :: tail)

/-- Length-table slicing loop of `parse_sjpg` (upload_image.py lines
198-206): strip boundaries are cumulative sums of the table, with the
bounds check of line 203. -/
def sliceLengths (data : List Nat) (headerSize : Nat) :
    Nat → List Nat → Except SjpgError (List (List Nat))
  | _, [] => .ok []
  | off, len :: rest =>
    if headerSize + off > headerSize + off + len ∨ headerSize + off < headerSize ∨
        headerSize + off + len > data.length then
      .error .badLengthTable
    else do
      let tail ← sliceLengths data headerSize (off + len) rest
      .ok ((data.drop (headerSize + off)).take len :: tail)

/-- Embedding of `parse_sjpg` (upload_image.py lines 141-208). -/
def parse_sjpg (data : List Nat) :
    Except SjpgError (Nat × Nat × Nat × List (List Nat)) :=
  if data.take 4 ≠ [95, 83, 74, 80] then .error .badMagic else
  match read_u16 data 14 with
  | none => .error .shortRead
  | some width =>
  match read_u16 data 16 with
  | none => .error .shortRead
  | some height =>
  match read_u16 data 18 with
  | none => .error .shortRead
  | some numStrips =>
  match read_u16 data 20 with
  | none => .error .shortRead
  | some blockHeight =>
  match readTable data 22 numStrips with
  | none => .error .shortRead
  | some table =>
  if data.length < 22 + 2 * numStrips then .error .headerPastEnd else
  if looksLikeOffsets table (data.length - (22 + 2 * numStrips)) then
    match sliceOffsets data (22 + 2 * numStrips) table with
    | .error e => .error e
    | .ok strips => .ok (width, height, blockHeight, strips)
  else
    match sliceLengths data (22 + 2 * numStrips) 0 table with
    | .error e => .error e
    | .ok strips => .ok (width, height, blockHeight, strips)

/-- The half-open slice ranges `[start, stop)` the offset-table branch of
`parse_sjpg` computes before its bounds check: strip `i` runs from
`headerSize + table[i]` to `headerSize + table[i+1]`, the last strip to the
end of the file (upload_image.py lines 188-193). -/
def offsetRanges (headerSize fileLen : Nat) : List Nat → List (Nat × Nat)
  | [] => []
  | [t] => [(headerSize + t, fileLen)]
  | t1 :: t2 :: rest => (headerSize + t1, headerSize + t2) :: offsetRanges headerSize fileLen (t2 :: rest)

/-- The half-open slice ranges the length-table branch of `parse_sjpg`
computes before its bounds check: strip boundaries are cumulative sums of
the table entries (upload_image.py lines 199-206). -/
def lengthRanges (headerSize : Nat) : Nat → List Nat → List (Nat × Nat)
  | _, [] => []
  | off, len :: rest => (headerSize + off, headerSize + off + len) :: lengthRanges headerSize (off + len) rest

/-- The slice ranges `parse_sjpg` derives from a table of `n` entries,
following its offset-vs-length heuristic. -/
def decodeRanges (data : List Nat) (n : Nat) (table : List Nat) : List (Nat × Nat) :=
  if looksLikeOffsets table (data.length - (22 + 2 * n)) then
    offsetRanges (22 + 2 * n) data.length table
  else
    lengthRanges (22 + 2 * n) 0 table

/-- The `ValueError` kind `parse_sjpg` raises when a slice range fails the
bounds check, per branch. -/
def rangeError (data : List Nat) (n : Nat) (table : List Nat) : SjpgError :=
  if looksLikeOffsets table (data.length - (22 + 2 * n)) then .badOffsetTable
  else .badLengthTable

/-- Table bytes actually produced by a successful `packTable` run. -/
def tableBytes (lens : List Nat) : List Nat := (lens.map u16pair).flatten

/-- Byte string produced by a successful `sjpgEncode` run. -/
def encBytes (width height stripHeight : Nat) (strips : List (List Nat)) : List Nat :=
  sjpgMagic ++ sjpgVersion ++ u16pair width ++ u16pair height ++
    u16pair strips.length ++ u16pair stripHeight ++
    tableBytes (strips.map List.length) ++ strips.flatten

/-! ## Transfer client (camera_to_esp32.py and upload_image.py)

The device's HTTP surface is the environment: a request either raises in
the client (`requests` exception) or yields a status code and body text.
For the strip loop the environment is indexed by the strip index, which
determines the request. -/

/-- Outcome of one `requests.post` call. -/
inductive NetResult
  | exn
  | resp (status : Nat) (body : List Char)

/-- The success marker looked up in response bodies. -/
def successMarker : List Char := "\x22success\x22:true".toList

/-- Boolean test that `needle` is a prefix of `hay`. -/
def prefixMatch : List Char → List Char → Bool
  | [], _ => true
  | _ :: _, [] => false
  | a :: as, b :: bs => a == b && prefixMatch as bs

/-- Python's substring containment `needle in hay`. -/
def containsSub (needle : List Char) : List Char → Bool
  | [] => needle.isEmpty
  | c :: rest => prefixMatch needle (c :: rest) || containsSub needle rest

/-- Test used by the camera client: `'"success":true' in response.text`. -/
def hasSuccess (body : List Char) : Bool := containsSub successMarker body

/-- Success of one HTTP exchange as the camera client judges it:
no exception, status 200, and the marker present in the body. -/
def respOk : NetResult → Bool
  | .exn => false
  | .resp status body => status == 200 && hasSuccess body

/-- Embedding of `CameraToESP32.upload_single` (camera_to_esp32.py lines
338-353): `response.status_code == 200 and '"success":true' in
response.text`, and `False` when `requests.post` raises. -/
def upload_single (net : NetResult) : Bool :=
  match net with
  | .exn => false
  | .resp status body => status == 200 && hasSuccess body

/-- Embedding of `upload_single_file` (upload_image.py lines 215-250):
success is `response.status_code == 200` alone; a raised exception
returns `False`.  The response body is only printed. -/
def upload_single_file (net : NetResult) : Bool :=
  match net with
  | .exn => false
  | .resp status _body => status == 200

/-- Query metadata and payload of one POST to `/api/display/image/chunks`
(camera_to_esp32.py lines 362-377). -/
structure ChunkRequest where
  index : Nat
  total : Nat
  width : Nat
  height : Nat
  timeout : Nat
  payload : List Nat
deriving DecidableEq, Repr

/-- How `CameraToESP32.upload_strips` ends: all strips accepted, an
HTTP-level rejection at a strip (logged with its index, line 379), or a
raised exception (logged without an index, lines 383-387). -/
inductive StripOutcome
  | success
  | rejected (index : Nat)
  | netError
deriving DecidableEq, Repr

/-- The outcome the strip loop reports for a failing exchange: a raised
exception loses the strip index, an HTTP rejection keeps it. -/
def failOutcome (r : NetResult) (i : Nat) : StripOutcome :=
  match r with
  | .exn => .netError
  | .resp _ _ => .rejected i

/-- Loop body of `CameraToESP32.upload_strips` (camera_to_esp32.py lines
362-381): one POST per strip in list order, stopping at the first
exchange with a non-200 status or missing marker, or at the first raised
exception.  The result collects the requests issued, in order, and the
reported outcome. -/
def upload_strips_go (net : Nat → NetResult) (total w h t : Nat) :
    Nat → List (List Nat) → List ChunkRequest × StripOutcome
  | _, [] => ([], .success)
  | idx, s :: rest =>
    match net idx with
    | .exn => ([⟨idx, total, w, h, t, s⟩], .netError)
    | .resp status body =>
      if status ≠ 200 ∨ hasSuccess body = false then
        ([⟨idx, total, w, h, t, s⟩], .rejected idx)
      else
        (⟨idx, total, w, h, t, s⟩ :: (upload_strips_go net total w h t (idx + 1) rest).1,
          (upload_strips_go net total w h t (idx + 1) rest).2)

/-- Embedding of `CameraToESP32.upload_strips` (camera_to_esp32.py lines
355-387): `total = len(strips)` is computed once, panel geometry is
attached to every request, indices start at 0. -/
def upload_strips (strips : List (List Nat)) (net : Nat → NetResult) (w h t : Nat) :
    List ChunkRequest × StripOutcome :=
  upload_strips_go net strips.length w h t 0 strips

/-- Success of one HTTP exchange as the standalone tool's strip loop
judges it: no exception and status 200 — the response body is only
printed, never checked for the marker (upload_image.py line 303). -/
def resp200 : NetResult → Bool
  | .exn => false
  | .resp status _body => status == 200

/-- How `upload_strips` in upload_image.py ends: all strips accepted, or
a failure at a strip.  Both the non-200 branch (line 306) and the except
branch (line 311) print the failing index before returning `False`. -/
inductive FileStripOutcome
  | success
  | failedAt (index : Nat)
deriving DecidableEq, Repr

/-- Loop body of `upload_strips` in upload_image.py (lines 281-312) on
the default full range (`start_strip = None`, `end_strip = None`, so
strips 0 .. len-1): one POST per strip in order, stopping at the first
non-200 status or raised exception; a 200 response is accepted without
looking at the body. -/
def upload_strips_file_go (net : Nat → NetResult) (total w h t : Nat) :
    Nat → List (List Nat) → List ChunkRequest × FileStripOutcome
  | _, [] => ([], .success)
  | idx, s :: rest =>
    match net idx with
    | .exn => ([⟨idx, total, w, h, t, s⟩], .failedAt idx)
    | .resp status _body =>
      if status ≠ 200 then
        ([⟨idx, total, w, h, t, s⟩], .failedAt idx)
      else
        (⟨idx, total, w, h, t, s⟩ :: (upload_strips_file_go net total w h t (idx + 1) rest).1,
          (upload_strips_file_go net total w h t (idx + 1) rest).2)

/-- Embedding of `upload_strips` (upload_image.py lines 253-315) after
`parse_sjpg`, on the default full strip range: `total = len(strips)`,
container geometry on every request, indices from 0. -/
def upload_strips_file (strips : List (List Nat)) (net : Nat → NetResult) (w h t : Nat) :
    List ChunkRequest × FileStripOutcome :=
  upload_strips_file_go net strips.length w h t 0 strips

/-- Concrete device environment used to exercise the camera strip loop:
strips 0 and 1 are accepted, strip 2 answers HTTP 500. -/
def c5net : Nat → NetResult :=
  fun j => if j = 2 then .resp 500 [] else .resp 200 successMarker

/-- Concrete device environment used to exercise the standalone tool's
strip loop: strip 0 answers HTTP 200 with an empty body (no marker),
strip 1 raises in the client. -/
def c5netF : Nat → NetResult :=
  fun j => if j = 1 then .exn else .resp 200 []

/-! ## Image preparation (camera_to_esp32.py `prepare_image`)

Only the geometry is modelled: a decoded Pillow image is its pixel
dimensions.  Python's float arithmetic for the scale factor is modelled
with exact rationals; none of the proved statements depend on the
rounding of the scaled dimensions.  `Image.open` failures and the
`except` clause map to `none`. -/

/-- A decoded Pillow image, reduced to its dimensions. -/
structure PILImage where
  width : Nat
  height : Nat
deriving DecidableEq, Repr

/-- The rotation request after `handle_event` validation
(camera_to_esp32.py lines 137-145): `None` (auto) or one of 0/90/180/270. -/
inductive RotatePolicy
  | auto
  | deg0
  | deg90
  | deg180
  | deg270
deriving DecidableEq, Repr

/-- `background.paste(img, offset)` draws in place; the canvas keeps the
background's dimensions. -/
def paste (bg : PILImage) (_fg : PILImage) (_ox _oy : Int) : PILImage := bg

/-- Rotation block of `prepare_image` (camera_to_esp32.py lines 259-273).
Auto mode rotates 90° only when the source is landscape and the target is
portrait, and only when both target dimensions are truthy; explicit 90°
and 270° swap the dimensions (`expand=True`), 180° keeps them.  The
dimensions are re-read from the rotated image (`original_size = img.size`). -/
def rotateStage (img : PILImage) (targetW targetH : Nat) : RotatePolicy → PILImage
  | .auto =>
    if targetW ≠ 0 ∧ targetH ≠ 0 then
      if img.width > img.height ∧ targetH > targetW then ⟨img.height, img.width⟩ else img
    else img
  | .deg0 => img
  | .deg90 => ⟨img.height, img.width⟩
  | .deg180 => img
  | .deg270 => ⟨img.height, img.width⟩

/-- Resize-and-letterbox block of `prepare_image` (camera_to_esp32.py
lines 276-304): uniform scale to fit, Lanczos resize (content ignored
here), black target-sized background, centred paste.  A zero source
dimension raises `ZeroDivisionError` in Python, caught by the function's
`except` clause, hence `none`. -/
def scaleStage (img : PILImage) (targetW targetH : Nat) : Option PILImage :=
  if targetW ≠ 0 ∧ targetH ≠ 0 then
    if img.width = 0 ∨ img.height = 0 then none
    else
      let widthR : ℚ := targetW / img.width
      let heightR : ℚ := targetH / img.height
      let sc := min widthR heightR
      let newW := ((img.width : ℚ) * sc).floor.toNat
      let newH := ((img.height : ℚ) * sc).floor.toNat
      let resized : PILImage := ⟨newW, newH⟩
      let background : PILImage := ⟨targetW, targetH⟩
      let offsetX : Int := ((targetW : Int) - (newW : Int)) / 2
      let offsetY : Int := ((targetH : Int) - (newH : Int)) / 2
      some (paste background resized offsetX offsetY)
  else some img

/-- Embedding of `CameraToESP32.prepare_image` (camera_to_esp32.py lines
252-314) after decoding: rotation, then scaling/letterboxing.  The final
`convert('RGB')` does not change dimensions. -/
def prepare_image (src : PILImage) (targetW targetH : Nat) (rot : RotatePolicy) :
    Option PILImage :=
  scaleStage (rotateStage src targetW targetH rot) targetW targetH

/-! ## Support lemmas: container serialization -/

lemma u16le_eq_some {n : Nat} (h : n ≤ 65535) : u16le n = some (u16pair n) := by
  simp [u16le, u16pair, h]

lemma u16le_some_inv {n : Nat} {b : List Nat} (h : u16le n = some b) :
    n ≤ 65535 ∧ b = u16pair n := by
  unfold u16le at h
  split at h
  · exact ⟨by assumption, (Option.some.inj h).symm⟩
  · cases h

lemma packTable_some_inv {strips : List (List Nat)} {t : List Nat}
    (h : packTable strips = some t) : t = tableBytes (strips.map List.length) := by
  induction strips generalizing t with
  | nil =>
    simp only [packTable, Option.some.injEq] at h
    subst h
    rfl
  | cons s rest ih =>
    unfold packTable at h
    split at h
    · cases h
    · rename_i hle
      rw [u16le_eq_some (Nat.le_of_not_lt hle)] at h
      cases hrest : packTable rest with
      | none => rw [hrest] at h; cases h
      | some tr =>
        rw [hrest] at h
        simp at h
        simp [← h, tableBytes, ih hrest]

lemma packTable_none_of_big {strips : List (List Nat)}
    (h : ∃ s ∈ strips, 65535 < s.length) : packTable strips = none := by
  induction strips with
  | nil => simp at h
  | cons s rest ih =>
    rcases h with ⟨w, hw, hbig⟩
    rcases List.mem_cons.mp hw with rfl | hmem
    · simp [packTable, hbig]
    · unfold packTable
      split
      · rfl
      · rw [ih ⟨w, hmem, hbig⟩]
        cases u16le s.length <;> rfl

lemma sjpgEncode_some_inv {w h sh : Nat} {strips : List (List Nat)} {bytes : List Nat}
    (henc : sjpgEncode w h sh strips = some bytes) : bytes = encBytes w h sh strips := by
  unfold sjpgEncode at henc
  cases hw : u16le w with
  | none => rw [hw] at henc; cases henc
  | some wb =>
  rw [hw] at henc
  cases hh : u16le h with
  | none => rw [hh] at henc; cases henc
  | some hb =>
  rw [hh] at henc
  cases hn : u16le strips.length with
  | none => rw [hn] at henc; cases henc
  | some nb =>
  rw [hn] at henc
  cases hs : u16le sh with
  | none => rw [hs] at henc; cases henc
  | some sb =>
  rw [hs] at henc
  cases ht : packTable strips with
  | none => rw [ht] at henc; cases henc
  | some tb =>
  rw [ht] at henc
  simp at henc
  rw [← henc, encBytes, (u16le_some_inv hw).2, (u16le_some_inv hh).2,
    (u16le_some_inv hn).2, (u16le_some_inv hs).2, packTable_some_inv ht]
  simp [List.append_assoc]

/-! ## Support lemmas: container parsing -/

lemma read_u16_at (pre rest : List Nat) (n : Nat) :
    read_u16 (pre ++ (u16pair n ++ rest)) pre.length = some n := by
  unfold read_u16 u16pair
  rw [List.drop_left]
  show some (n % 256 + 256 * (n / 256)) = some n
  rw [Nat.mod_add_div]

lemma readTable_at (lens : List Nat) : ∀ pre rest : List Nat,
    readTable (pre ++ (tableBytes lens ++ rest)) pre.length lens.length = some lens := by
  induction lens with
  | nil => intro pre rest; rfl
  | cons l ls ih =>
    intro pre rest
    have hT : tableBytes (l :: ls) ++ rest = u16pair l ++ (tableBytes ls ++ rest) := by
      simp [tableBytes]
    have h1 : read_u16 (pre ++ (tableBytes (l :: ls) ++ rest)) pre.length = some l := by
      rw [hT]; exact read_u16_at pre _ l
    have h2 : readTable (pre ++ (tableBytes (l :: ls) ++ rest)) (pre.length + 2) ls.length
        = some ls := by
      have h3 := ih (pre ++ u16pair l) rest
      have h4 : (pre ++ u16pair l).length = pre.length + 2 := by simp [u16pair]
      rw [h4, List.append_assoc] at h3
      rw [hT]
      exact h3
    show readTable _ pre.length (ls.length + 1) = _
    unfold readTable
    rw [h1, h2]
    rfl

lemma sliceLengths_at (ss : List (List Nat)) : ∀ (pre junk : List Nat) (hs off : Nat),
    pre.length = hs + off →
    sliceLengths (pre ++ (ss.flatten ++ junk)) hs off (ss.map List.length) = .ok ss := by
  induction ss with
  | nil => intro pre junk hs off _; rfl
  | cons s rest ih =>
    intro pre junk hs off hpre
    have hflat : (s :: rest).flatten ++ junk = s ++ (rest.flatten ++ junk) := by
      simp
    have hdatalen : hs + off + s.length ≤ (pre ++ ((s :: rest).flatten ++ junk)).length := by
      rw [hflat]
      simp [← hpre]
    have hslice : ((pre ++ ((s :: rest).flatten ++ junk)).drop (hs + off)).take s.length
        = s := by
      rw [hflat, ← hpre, List.drop_left]
      exact List.take_left s (rest.flatten ++ junk)
    have hrec : sliceLengths (pre ++ ((s :: rest).flatten ++ junk)) hs (off + s.length)
        (rest.map List.length) = .ok rest := by
      have h5 := ih (pre ++ s) junk hs (off + s.length) (by simp [hpre]; omega)
      rw [List.append_assoc] at h5
      rw [hflat]
      exact h5
    simp only [List.map_cons]
    unfold sliceLengths
    rw [if_neg (by push_neg; exact ⟨Nat.le_add_right _ _, Nat.le_add_right _ _, hdatalen⟩),
      hrec, hslice]
    rfl
lemma tableBytes_length (lens : List Nat) : (tableBytes lens).length = 2 * lens.length := by
  induction lens with
  | nil => rfl
  | cons l ls ih =>
    simp [tableBytes] at ih ⊢
    simp [u16pair, ih]
    omega

lemma encBytes_length (w h sh : Nat) (strips : List (List Nat)) :
    (encBytes w h sh strips).length = 22 + (2 * strips.length + strips.flatten.length) := by
  simp [encBytes, sjpgMagic, sjpgVersion, u16pair, tableBytes_length]
  omega

lemma looksLikeOffsets_false (strips : List (List Nat)) (hfirst : strips.headD [0] ≠ [])
    (d : Nat) : looksLikeOffsets (strips.map List.length) d = false := by
  cases strips with
  | nil => rfl
  | cons s rest =>
    have hne : s ≠ [] := hfirst
    have hlen : s.length ≠ 0 := fun h0 => hne (List.length_eq_zero.mp h0)
    simp [looksLikeOffsets, hlen]

/-- Parsing the bytes written by the serializer, possibly followed by
trailing junk, recovers the header fields and the strips whenever the
first strip is nonempty (so the offset heuristic cannot fire). -/
lemma parse_encBytes (w h sh : Nat) (strips : List (List Nat)) (junk : List Nat)
    (hfirst : strips.headD [0] ≠ []) :
    parse_sjpg (encBytes w h sh strips ++ junk) = .ok (w, h, sh, strips) := by
  have htake : (encBytes w h sh strips ++ junk).take 4 = [95, 83, 74, 80] := by
    simp [encBytes, sjpgMagic, sjpgVersion, List.append_assoc]
  have h14 : read_u16 (encBytes w h sh strips ++ junk) 14 = some w := by
    have e14 : encBytes w h sh strips ++ junk
        = (sjpgMagic ++ sjpgVersion) ++ (u16pair w ++ (u16pair h ++ (u16pair strips.length
            ++ (u16pair sh ++ (tableBytes (strips.map List.length)
              ++ (strips.flatten ++ junk)))))) := by
      simp [encBytes, List.append_assoc]
    rw [e14]
    exact read_u16_at (sjpgMagic ++ sjpgVersion) _ w
  have h16 : read_u16 (encBytes w h sh strips ++ junk) 16 = some h := by
    have e16 : encBytes w h sh strips ++ junk
        = (sjpgMagic ++ sjpgVersion ++ u16pair w) ++ (u16pair h ++ (u16pair strips.length
            ++ (u16pair sh ++ (tableBytes (strips.map List.length)
              ++ (strips.flatten ++ junk))))) := by
      simp [encBytes, List.append_assoc]
    rw [e16]
    have hlen : (sjpgMagic ++ sjpgVersion ++ u16pair w).length = 16 := by
      simp [sjpgMagic, sjpgVersion, u16pair]
    rw [← hlen]
    exact read_u16_at _ _ h
  have h18 : read_u16 (encBytes w h sh strips ++ junk) 18 = some strips.length := by
    have e18 : encBytes w h sh strips ++ junk
        = (sjpgMagic ++ sjpgVersion ++ u16pair w ++ u16pair h) ++ (u16pair strips.length
            ++ (u16pair sh ++ (tableBytes (strips.map List.length)
              ++ (strips.flatten ++ junk)))) := by
      simp [encBytes, List.append_assoc]
    rw [e18]
    have hlen : (sjpgMagic ++ sjpgVersion ++ u16pair w ++ u16pair h).length = 18 := by
      simp [sjpgMagic, sjpgVersion, u16pair]
    rw [← hlen]
    exact read_u16_at _ _ strips.length
  have h20 : read_u16 (encBytes w h sh strips ++ junk) 20 = some sh := by
    have e20 : encBytes w h sh strips ++ junk
        = (sjpgMagic ++ sjpgVersion ++ u16pair w ++ u16pair h ++ u16pair strips.length)
            ++ (u16pair sh ++ (tableBytes (strips.map List.length)
              ++ (strips.flatten ++ junk))) := by
      simp [encBytes, List.append_assoc]
    rw [e20]
    have hlen : (sjpgMagic ++ sjpgVersion ++ u16pair w ++ u16pair h
        ++ u16pair strips.length).length = 20 := by
      simp [sjpgMagic, sjpgVersion, u16pair]
    rw [← hlen]
    exact read_u16_at _ _ sh
  have htbl : readTable (encBytes w h sh strips ++ junk) 22 strips.length
      = some (strips.map List.length) := by
    have e22 : encBytes w h sh strips ++ junk
        = (sjpgMagic ++ sjpgVersion ++ u16pair w ++ u16pair h ++ u16pair strips.length
            ++ u16pair sh) ++ (tableBytes (strips.map List.length)
              ++ (strips.flatten ++ junk)) := by
      simp [encBytes, List.append_assoc]
    rw [e22]
    have hlen : (sjpgMagic ++ sjpgVersion ++ u16pair w ++ u16pair h ++ u16pair strips.length
        ++ u16pair sh).length = 22 := by
      simp [sjpgMagic, sjpgVersion, u16pair]
    have := readTable_at (strips.map List.length)
      (sjpgMagic ++ sjpgVersion ++ u16pair w ++ u16pair h ++ u16pair strips.length
        ++ u16pair sh) (strips.flatten ++ junk)
    rw [hlen, List.length_map] at this
    exact this
  have hslices : sliceLengths (encBytes w h sh strips ++ junk) (22 + 2 * strips.length) 0
      (strips.map List.length) = .ok strips := by
    have e26 : encBytes w h sh strips ++ junk
        = (sjpgMagic ++ sjpgVersion ++ u16pair w ++ u16pair h ++ u16pair strips.length
            ++ u16pair sh ++ tableBytes (strips.map List.length))
            ++ (strips.flatten ++ junk) := by
      simp [encBytes, List.append_assoc]
    have hlen : (sjpgMagic ++ sjpgVersion ++ u16pair w ++ u16pair h ++ u16pair strips.length
        ++ u16pair sh ++ tableBytes (strips.map List.length)).length
        = 22 + 2 * strips.length + 0 := by
      simp [sjpgMagic, sjpgVersion, u16pair, tableBytes_length]
      omega
    rw [e26]
    exact sliceLengths_at strips _ junk (22 + 2 * strips.length) 0 hlen
  have hbig : ¬ (encBytes w h sh strips ++ junk).length < 22 + 2 * strips.length := by
    simp [encBytes_length]
    omega
  unfold parse_sjpg
  rw [if_neg (by simp [htake])]
  simp only [h14, h16, h18, h20, htbl]
  rw [if_neg hbig]
  simp only [looksLikeOffsets_false strips hfirst, Bool.false_eq_true, if_false]
  rw [hslices]

lemma u16le_eq_none {n : Nat} (h : 65535 < n) : u16le n = none := by
  simp [u16le]
  omega

/-! ## Claim theorems: container round trip and encoding errors -/

/-- C1 (amended): for every width, height and stripHeight with
`stripHeight > 0` and every strip sequence whose serialization succeeds
and whose FIRST strip is nonempty, decoding the produced container
returns exactly the original width, height, stripHeight and strips.  The
nonemptiness of the first strip is forced by `c1_counterexample`: a
zero-length first strip makes the length table satisfy the decoder's
offset-table heuristic, which then misreads it. -/
theorem c1_roundtrip_length_table (w h sh : Nat) (strips : List (List Nat))
    (bytes : List Nat) (hsh : 0 < sh)
    (henc : sjpgEncode w h sh strips = some bytes)
    (hfirst : strips.headD [0] ≠ []) :
    parse_sjpg bytes = .ok (w, h, sh, strips) := by
  rw [sjpgEncode_some_inv henc]
  have := parse_encBytes w h sh strips [] hfirst
  rwa [List.append_nil] at this

/-- C1 counterexample: encoding strips `[[], [97, 98]]` (first strip
empty) succeeds, but decoding returns `[[97, 98], []]` — the length table
`[0, 2]` matches the offset-table heuristic and is misinterpreted, so the
round trip as claimed for EVERY strip sequence fails. -/
theorem c1_counterexample :
    (sjpgEncode 1 2 1 [[], [97, 98]]).map parse_sjpg
      = some (.ok (1, 2, 1, [[97, 98], []])) ∧
    ([[97, 98], []] : List (List Nat)) ≠ [[], [97, 98]] :=
  ⟨rfl, by decide⟩

/-- Witness for `c1_roundtrip_length_table` at a concrete container. -/
theorem c1_witness :
    0 < 1 ∧
    parse_sjpg [95, 83, 74, 80, 71, 95, 95, 0, 86, 49, 46, 48, 48, 0,
        3, 0, 2, 0, 2, 0, 1, 0, 1, 0, 1, 0, 9, 8]
      = .ok (3, 2, 1, [[9], [8]]) :=
  ⟨by decide,
    c1_roundtrip_length_table 3 2 1 [[9], [8]] _ (by decide) (by decide) (by decide)⟩

/-- C4: the serializer fails (no container bytes at all) whenever width,
height or stripHeight exceeds the u16 range or some strip is longer than
65535 bytes. -/
theorem c4_encode_rejects_oversize (w h sh : Nat) (strips : List (List Nat))
    (hbad : 65535 < w ∨ 65535 < h ∨ 65535 < sh ∨ ∃ s ∈ strips, 65535 < s.length) :
    sjpgEncode w h sh strips = none := by
  unfold sjpgEncode
  rcases hbad with hw | hh | hs | hstrip
  · simp [u16le_eq_none hw]
  · cases hu : u16le w <;> simp [hu, u16le_eq_none hh]
  · have hsn : u16le sh = none := u16le_eq_none hs
    cases hu : u16le w <;> cases hv : u16le h <;> cases hn : u16le strips.length <;>
      simp [hu, hv, hn, hsn]
  · have hpt : packTable strips = none := packTable_none_of_big hstrip
    cases hu : u16le w <;> cases hv : u16le h <;> cases hn : u16le strips.length <;>
      cases hs2 : u16le sh <;> simp [hu, hv, hn, hs2, hpt]

/-- Witness for `c4_encode_rejects_oversize`: width 70000 overflows. -/
theorem c4_witness :
    (65535 < 70000 ∨ 65535 < 1 ∨ 65535 < 1 ∨ ∃ s ∈ [[1]], 65535 < List.length s) ∧
    sjpgEncode 70000 1 1 [[1]] = none :=
  ⟨Or.inl (by decide), c4_encode_rejects_oversize 70000 1 1 [[1]] (Or.inl (by decide))⟩

/-- C9: when the table is read as a length table, trailing payload bytes
beyond the table's sum are silently ignored: appending junk to a valid
container leaves the decode result unchanged, even though the table sum
is then strictly smaller than the payload size.  The decoder does not
enforce `sum(table) == len(payload)`. -/
theorem c9_trailing_bytes_ignored (w h sh : Nat) (strips : List (List Nat))
    (bytes junk : List Nat)
    (henc : sjpgEncode w h sh strips = some bytes)
    (hfirst : strips.headD [0] ≠ [])
    (hjunk : junk ≠ []) :
    parse_sjpg (bytes ++ junk) = .ok (w, h, sh, strips) ∧
    (strips.map List.length).sum < (bytes ++ junk).length - (22 + 2 * strips.length) := by
  have hb := sjpgEncode_some_inv henc
  subst hb
  refine ⟨parse_encBytes w h sh strips junk hfirst, ?_⟩
  have h1 := encBytes_length w h sh strips
  have h2 : strips.flatten.length = (strips.map List.length).sum := List.length_flatten _
  have h3 : 0 < junk.length := List.length_pos.mpr hjunk
  rw [List.length_append, h1]
  omega

/-- Witness for `c9_trailing_bytes_ignored` at a concrete container with
one junk byte appended. -/
theorem c9_witness :
    sjpgEncode 4 2 1 [[9], [8]] = some [95, 83, 74, 80, 71, 95, 95, 0, 86, 49, 46, 48, 48,
        0, 4, 0, 2, 0, 2, 0, 1, 0, 1, 0, 1, 0, 9, 8] ∧
    (parse_sjpg ([95, 83, 74, 80, 71, 95, 95, 0, 86, 49, 46, 48, 48, 0,
        4, 0, 2, 0, 2, 0, 1, 0, 1, 0, 1, 0, 9, 8] ++ [1])
      = .ok (4, 2, 1, [[9], [8]]) ∧
    ([[9], [8]].map List.length).sum
      < (([95, 83, 74, 80, 71, 95, 95, 0, 86, 49, 46, 48, 48, 0,
          4, 0, 2, 0, 2, 0, 1, 0, 1, 0, 1, 0, 9, 8] : List Nat) ++ [1]).length
        - (22 + 2 * ([[9], [8]] : List (List Nat)).length)) :=
  ⟨by decide,
    c9_trailing_bytes_ignored 4 2 1 [[9], [8]] _ [1] (by decide) (by decide) (by decide)⟩

/-! ## Support lemmas: slice bounds and short reads -/

lemma sliceLengths_spec (data : List Nat) (hs : Nat) : ∀ (table : List Nat) (off : Nat),
    ((∃ r ∈ lengthRanges hs off table, r.1 > r.2 ∨ r.1 < hs ∨ r.2 > data.length) →
      sliceLengths data hs off table = .error .badLengthTable) ∧
    (∀ strips, sliceLengths data hs off table = .ok strips →
      strips = (lengthRanges hs off table).map (fun r => (data.drop r.1).take (r.2 - r.1)) ∧
      ∀ r ∈ lengthRanges hs off table, hs ≤ r.1 ∧ r.1 ≤ r.2 ∧ r.2 ≤ data.length) := by
  intro table
  induction table with
  | nil =>
    intro off
    constructor
    · rintro ⟨r, hr, _⟩
      simp [lengthRanges] at hr
    · intro strips hok
      simp only [sliceLengths] at hok
      cases hok
      simp [lengthRanges]
  | cons len rest ih =>
    intro off
    constructor
    · rintro ⟨r, hr, hbad⟩
      unfold sliceLengths
      rcases List.mem_cons.mp hr with rfl | hmem
      · rw [if_pos hbad]
      · split
        · rfl
        · rw [(ih (off + len)).1 ⟨r, hmem, hbad⟩]
          rfl
    · intro strips hok
      unfold sliceLengths at hok
      split at hok
      · cases hok
      · rename_i hcond
        push_neg at hcond
        cases hrec : sliceLengths data hs (off + len) rest with
        | error e => rw [hrec] at hok; cases hok
        | ok tail =>
          rw [hrec] at hok
          cases hok
          have IH := (ih (off + len)).2 tail hrec
          constructor
          · simp [lengthRanges, IH.1, Nat.add_sub_cancel_left]
          · intro r hmem
            rcases List.mem_cons.mp hmem with rfl | hmem2
            · exact ⟨Nat.le_add_right _ _, Nat.le_add_right _ _, hcond.2.2⟩
            · exact IH.2 r hmem2

lemma sliceOffsets_spec (data : List Nat) (hs : Nat) : ∀ table : List Nat,
    ((∃ r ∈ offsetRanges hs data.length table, r.1 > r.2 ∨ r.1 < hs ∨ r.2 > data.length) →
      sliceOffsets data hs table = .error .badOffsetTable) ∧
    (∀ strips, sliceOffsets data hs table = .ok strips →
      strips = (offsetRanges hs data.length table).map
          (fun r => (data.drop r.1).take (r.2 - r.1)) ∧
      ∀ r ∈ offsetRanges hs data.length table,
        hs ≤ r.1 ∧ r.1 ≤ r.2 ∧ r.2 ≤ data.length) := by
  intro table
  induction table with
  | nil =>
    constructor
    · rintro ⟨r, hr, _⟩
      simp [offsetRanges] at hr
    · intro strips hok
      simp only [sliceOffsets] at hok
      cases hok
      simp [offsetRanges]
  | cons t rest ih =>
    cases rest with
    | nil =>
      constructor
      · rintro ⟨r, hr, hbad⟩
        unfold sliceOffsets
        rcases List.mem_singleton.mp hr with rfl
        rw [if_pos hbad]
      · intro strips hok
        unfold sliceOffsets at hok
        split at hok
        · cases hok
        · rename_i hcond
          push_neg at hcond
          cases hok
          constructor
          · simp [offsetRanges]
          · intro r hmem
            rcases List.mem_singleton.mp hmem with rfl
            exact ⟨Nat.le_add_right _ _, hcond.1, le_refl _⟩
    | cons t2 r2 =>
      constructor
      · rintro ⟨r, hr, hbad⟩
        unfold sliceOffsets
        rcases List.mem_cons.mp hr with rfl | hmem
        · rw [if_pos hbad]
        · split
          · rfl
          · rw [(ih).1 ⟨r, hmem, hbad⟩]
            rfl
      · intro strips hok
        unfold sliceOffsets at hok
        split at hok
        · cases hok
        · rename_i hcond
          push_neg at hcond
          cases hrec : sliceOffsets data hs (t2 :: r2) with
          | error e => rw [hrec] at hok; cases hok
          | ok tail =>
            rw [hrec] at hok
            cases hok
            have IH := (ih).2 tail hrec
            constructor
            · simp [offsetRanges, IH.1]
            · intro r hmem
              rcases List.mem_cons.mp hmem with rfl | hmem2
              · exact ⟨Nat.le_add_right _ _, hcond.1, hcond.2.2⟩
              · exact IH.2 r hmem2

lemma read_u16_eq_none (data : List Nat) (pos : Nat) (h : data.length < pos + 2) :
    read_u16 data pos = none := by
  unfold read_u16
  have hl : ((data.drop pos).take 2).length ≤ data.length - pos := by
    simp [List.length_take]
  rcases hs : (data.drop pos).take 2 with _ | ⟨a, _ | ⟨b, r⟩⟩
  · rfl
  · rfl
  · rw [hs] at hl
    simp at hl
    omega

lemma read_u16_isSome (data : List Nat) (pos : Nat) (h : pos + 2 ≤ data.length) :
    ∃ v, read_u16 data pos = some v := by
  have hl : ((data.drop pos).take 2).length = 2 := by
    simp [List.length_take]
    omega
  rcases hs : (data.drop pos).take 2 with _ | ⟨a, _ | ⟨b, r⟩⟩
  · rw [hs] at hl; simp at hl
  · rw [hs] at hl; simp at hl
  · rw [hs] at hl
    simp at hl
    subst hl
    refine ⟨a + 256 * b, ?_⟩
    unfold read_u16
    rw [hs]

lemma readTable_eq_none (data : List Nat) : ∀ (n pos : Nat), 0 < n →
    data.length < pos + 2 * n → readTable data pos n = none := by
  intro n
  induction n with
  | zero =>
    intro pos h0 _
    cases h0
  | succ m ih =>
    intro pos _ hlen
    unfold readTable
    cases hr : read_u16 data pos with
    | none => simp
    | some v =>
      have hge : pos + 2 ≤ data.length := by
        by_contra hc
        push_neg at hc
        rw [read_u16_eq_none data pos hc] at hr
        cases hr
      have hm : 0 < m := by omega
      have hrec := ih (pos + 2) hm (by omega)
      simp [hrec]

/-! ## Claim theorems: parsing safety -/

/-- C3 (amended): once the header and table of a container are read
(magic valid, all reads succeed, file at least header-sized), the decoder
computes the slice ranges dictated by the table (`decodeRanges`): if any
of those ranges is inverted (`start > stop`), starts before the payload,
or extends past the end of the file, `parse_sjpg` fails with the branch's
CorruptContainer error (`Invalid SJPG offset/length table`); and whenever
it instead succeeds, the returned strips are exactly the slices at those
ranges, every one of which is non-inverted and inside the file bounds.
Zero-length slices, however, are accepted and returned (see
`c3_counterexample`), contrary to the claim's "empty" clause. -/
theorem c3_decode_rejects_bad_slices (data : List Nat) (w h n bh : Nat) (table : List Nat)
    (hmagic : data.take 4 = [95, 83, 74, 80])
    (h14 : read_u16 data 14 = some w)
    (h16 : read_u16 data 16 = some h)
    (h18 : read_u16 data 18 = some n)
    (h20 : read_u16 data 20 = some bh)
    (htab : readTable data 22 n = some table)
    (hfit : ¬ data.length < 22 + 2 * n) :
    ((∃ r ∈ decodeRanges data n table,
        r.1 > r.2 ∨ r.1 < 22 + 2 * n ∨ r.2 > data.length) →
      parse_sjpg data = .error (rangeError data n table)) ∧
    (∀ strips, parse_sjpg data = .ok (w, h, bh, strips) →
      strips = (decodeRanges data n table).map
          (fun r => (data.drop r.1).take (r.2 - r.1)) ∧
      ∀ r ∈ decodeRanges data n table,
        22 + 2 * n ≤ r.1 ∧ r.1 ≤ r.2 ∧ r.2 ≤ data.length) := by
  have hparse : parse_sjpg data =
      (if looksLikeOffsets table (data.length - (22 + 2 * n)) then
        match sliceOffsets data (22 + 2 * n) table with
        | .error e => .error e
        | .ok strips => .ok (w, h, bh, strips)
      else
        match sliceLengths data (22 + 2 * n) 0 table with
        | .error e => .error e
        | .ok strips => .ok (w, h, bh, strips)) := by
    unfold parse_sjpg
    rw [if_neg (by simp [hmagic])]
    simp only [h14, h16, h18, h20, htab]
    rw [if_neg hfit]
  cases hLO : looksLikeOffsets table (data.length - (22 + 2 * n)) with
  | true =>
    rw [hLO, if_pos rfl] at hparse
    constructor
    · intro hex
      rw [decodeRanges, hLO, if_pos rfl] at hex
      rw [hparse, (sliceOffsets_spec data (22 + 2 * n) table).1 hex]
      rw [rangeError, hLO, if_pos rfl]
    · intro strips hok
      rw [hparse] at hok
      cases hslice : sliceOffsets data (22 + 2 * n) table with
      | error e => rw [hslice] at hok; cases hok
      | ok strips2 =>
        rw [hslice] at hok
        injection hok with hpair
        have hstr : strips2 = strips := congrArg (fun p => p.2.2.2) hpair
        have HS := (sliceOffsets_spec data (22 + 2 * n) table).2 strips2 hslice
        rw [decodeRanges, hLO, if_pos rfl, ← hstr]
        exact HS
  | false =>
    rw [hLO] at hparse
    rw [if_neg (by simp)] at hparse
    constructor
    · intro hex
      rw [decodeRanges, hLO] at hex
      rw [if_neg (by simp)] at hex
      rw [hparse, (sliceLengths_spec data (22 + 2 * n) table 0).1 hex]
      rw [rangeError, hLO]
      rw [if_neg (by simp)]
    · intro strips hok
      rw [hparse] at hok
      cases hslice : sliceLengths data (22 + 2 * n) 0 table with
      | error e => rw [hslice] at hok; cases hok
      | ok strips2 =>
        rw [hslice] at hok
        injection hok with hpair
        have hstr : strips2 = strips := congrArg (fun p => p.2.2.2) hpair
        have HS := (sliceLengths_spec data (22 + 2 * n) table 0).2 strips2 hslice
        rw [decodeRanges, hLO]
        rw [if_neg (by simp), ← hstr]
        exact HS

/-- C3 counterexample: a container whose single table entry produces an
EMPTY slice decodes successfully and returns that zero-length strip — the
decoder only rejects inverted or out-of-bounds slices, not empty ones. -/
theorem c3_counterexample :
    parse_sjpg [95, 83, 74, 80, 71, 95, 95, 0, 86, 49, 46, 48, 48, 0,
        1, 0, 1, 0, 1, 0, 1, 0, 0, 0]
      = .ok (1, 1, 1, [[]]) ∧ ([] : List Nat) ∈ [([] : List Nat)] :=
  ⟨rfl, by decide⟩

/-- Witness for `c3_decode_rejects_bad_slices`: a container whose single
length-table entry (5) overruns the 24-byte file, so its slice range
`(24, 29)` is out of bounds and decoding fails with the length-table
CorruptContainer error. -/
theorem c3_witness :
    parse_sjpg [95, 83, 74, 80, 71, 95, 95, 0, 86, 49, 46, 48, 48, 0,
        1, 0, 1, 0, 1, 0, 1, 0, 5, 0] = .error .badLengthTable :=
  (c3_decode_rejects_bad_slices [95, 83, 74, 80, 71, 95, 95, 0, 86, 49, 46, 48, 48, 0,
        1, 0, 1, 0, 1, 0, 1, 0, 5, 0] 1 1 1 1 [5]
      (by decide) (by decide) (by decide) (by decide) (by decide) (by decide)
      (by decide)).1
    ⟨(24, 29), by decide, by decide⟩

/-- C10: an input starting with the `_SJP` magic but shorter than the
full `22 + 2 * stripCount`-byte header makes the parser fail with the
short-read (`struct.error`) failure — not a `CorruptContainer`-style
`ValueError` — and no strip list is returned. -/
theorem c10_short_header_struct_error (data : List Nat)
    (hmagic : data.take 4 = [95, 83, 74, 80])
    (hshort : data.length < 22 + 2 * (read_u16 data 18).getD 0) :
    parse_sjpg data = .error .shortRead := by
  unfold parse_sjpg
  rw [if_neg (by simp [hmagic])]
  by_cases h16 : data.length < 16
  · rw [read_u16_eq_none data 14 (by omega)]
  · push_neg at h16
    obtain ⟨v14, hv14⟩ := read_u16_isSome data 14 (by omega)
    simp only [hv14]
    by_cases h18 : data.length < 18
    · rw [read_u16_eq_none data 16 (by omega)]
    · push_neg at h18
      obtain ⟨v16, hv16⟩ := read_u16_isSome data 16 (by omega)
      simp only [hv16]
      by_cases h20 : data.length < 20
      · rw [read_u16_eq_none data 18 (by omega)]
      · push_neg at h20
        obtain ⟨v18, hv18⟩ := read_u16_isSome data 18 (by omega)
        simp only [hv18]
        rw [hv18] at hshort
        simp only [Option.getD_some] at hshort
        by_cases h22 : data.length < 22
        · rw [read_u16_eq_none data 20 (by omega)]
        · push_neg at h22
          obtain ⟨v20, hv20⟩ := read_u16_isSome data 20 (by omega)
          simp only [hv20]
          have hn : 0 < v18 := by omega
          rw [readTable_eq_none data v18 22 hn (by omega)]

/-- Witness for `c10_short_header_struct_error`: a four-byte input that
is just the magic. -/
theorem c10_witness :
    ([95, 83, 74, 80] : List Nat).take 4 = [95, 83, 74, 80] ∧
    ([95, 83, 74, 80] : List Nat).length
      < 22 + 2 * (read_u16 [95, 83, 74, 80] 18).getD 0 ∧
    parse_sjpg [95, 83, 74, 80] = .error .shortRead :=
  ⟨by decide, by decide,
    c10_short_header_struct_error [95, 83, 74, 80] (by decide) (by decide)⟩

/-! ## Support lemmas: strip upload loop -/

lemma upload_strips_go_index_list (net : Nat → NetResult) (total w h t : Nat) :
    ∀ (strips : List (List Nat)) (idx : Nat),
    (upload_strips_go net total w h t idx strips).1.map ChunkRequest.index
      = List.range' idx (upload_strips_go net total w h t idx strips).1.length := by
  intro strips
  induction strips with
  | nil => intro idx; rfl
  | cons s rest ih =>
    intro idx
    cases hni : net idx with
    | exn => simp [upload_strips_go, hni, List.range'_one]
    | resp status body =>
      by_cases hc : status ≠ 200 ∨ hasSuccess body = false
      · simp [upload_strips_go, hni, hc, List.range'_one]
      · simp [upload_strips_go, hni, hc, List.range'_succ, ih (idx + 1)]

lemma upload_strips_go_total_fields (net : Nat → NetResult) (total w h t : Nat) :
    ∀ (strips : List (List Nat)) (idx : Nat) (r : ChunkRequest),
    r ∈ (upload_strips_go net total w h t idx strips).1 → r.total = total := by
  intro strips
  induction strips with
  | nil =>
    intro idx r hr
    simp [upload_strips_go] at hr
  | cons s rest ih =>
    intro idx r hr
    unfold upload_strips_go at hr
    split at hr
    · rcases List.mem_singleton.mp hr with rfl
      rfl
    · split at hr
      · rcases List.mem_singleton.mp hr with rfl
        rfl
      · rcases List.mem_cons.mp hr with rfl | hmem
        · rfl
        · exact ih (idx + 1) r hmem

lemma upload_strips_go_fail (net : Nat → NetResult) (total w h t : Nat) :
    ∀ (strips : List (List Nat)) (idx i : Nat), i < strips.length →
    (∀ j, j < i → respOk (net (idx + j)) = true) →
    respOk (net (idx + i)) = false →
    (upload_strips_go net total w h t idx strips).2 = failOutcome (net (idx + i)) (idx + i) ∧
    (upload_strips_go net total w h t idx strips).1.length = i + 1 := by
  intro strips
  induction strips with
  | nil =>
    intro idx i hi _ _
    exact absurd hi (Nat.not_lt_zero i)
  | cons s rest ih =>
    intro idx i hi hprev hfail
    cases i with
    | zero =>
      rw [Nat.add_zero] at hfail ⊢
      cases hni : net idx with
      | exn =>
        refine ⟨?_, ?_⟩ <;> simp [upload_strips_go, hni, failOutcome]
      | resp status body =>
        rw [hni] at hfail
        simp only [respOk] at hfail
        have hcond : status ≠ 200 ∨ hasSuccess body = false := by
          by_cases hst : status = 200
          · right
            subst hst
            simpa using hfail
          · left
            exact hst
        refine ⟨?_, ?_⟩ <;> simp [upload_strips_go, hni, hcond, failOutcome]
    | succ m =>
      have h0 : respOk (net idx) = true := by
        simpa using hprev 0 (Nat.succ_pos m)
      cases hni : net idx with
      | exn =>
        rw [hni] at h0
        simp [respOk] at h0
      | resp status body =>
        rw [hni] at h0
        have hcondF : ¬(status ≠ 200 ∨ hasSuccess body = false) := by
          simp only [respOk, Bool.and_eq_true, beq_iff_eq] at h0
          push_neg
          exact ⟨h0.1, by simp [h0.2]⟩
        have IH := ih (idx + 1) m (Nat.lt_of_succ_lt_succ hi)
          (fun j hj => by
            have hx := hprev (j + 1) (Nat.succ_lt_succ hj)
            rwa [show idx + (j + 1) = idx + 1 + j from by omega] at hx)
          (by rwa [show idx + (m + 1) = idx + 1 + m from by omega] at hfail)
        have hgoal1 : (upload_strips_go net total w h t idx (s :: rest)).2
            = (upload_strips_go net total w h t (idx + 1) rest).2 := by
          simp [upload_strips_go, hni, hcondF]
        have hgoal2 : (upload_strips_go net total w h t idx (s :: rest)).1.length
            = (upload_strips_go net total w h t (idx + 1) rest).1.length + 1 := by
          simp [upload_strips_go, hni, hcondF]
        rw [hgoal1, hgoal2, IH.2]
        refine ⟨?_, rfl⟩
        rw [show idx + (m + 1) = idx + 1 + m from by omega]
        exact IH.1

lemma upload_strips_file_go_index_list (net : Nat → NetResult) (total w h t : Nat) :
    ∀ (strips : List (List Nat)) (idx : Nat),
    (upload_strips_file_go net total w h t idx strips).1.map ChunkRequest.index
      = List.range' idx (upload_strips_file_go net total w h t idx strips).1.length := by
  intro strips
  induction strips with
  | nil => intro idx; rfl
  | cons s rest ih =>
    intro idx
    cases hni : net idx with
    | exn => simp [upload_strips_file_go, hni, List.range'_one]
    | resp status body =>
      by_cases hc : status ≠ 200
      · simp [upload_strips_file_go, hni, hc, List.range'_one]
      · simp [upload_strips_file_go, hni, hc, List.range'_succ, ih (idx + 1)]

lemma upload_strips_file_go_total_fields (net : Nat → NetResult) (total w h t : Nat) :
    ∀ (strips : List (List Nat)) (idx : Nat) (r : ChunkRequest),
    r ∈ (upload_strips_file_go net total w h t idx strips).1 → r.total = total := by
  intro strips
  induction strips with
  | nil =>
    intro idx r hr
    simp [upload_strips_file_go] at hr
  | cons s rest ih =>
    intro idx r hr
    unfold upload_strips_file_go at hr
    split at hr
    · rcases List.mem_singleton.mp hr with rfl
      rfl
    · split at hr
      · rcases List.mem_singleton.mp hr with rfl
        rfl
      · rcases List.mem_cons.mp hr with rfl | hmem
        · rfl
        · exact ih (idx + 1) r hmem

lemma upload_strips_file_go_fail (net : Nat → NetResult) (total w h t : Nat) :
    ∀ (strips : List (List Nat)) (idx i : Nat), i < strips.length →
    (∀ j, j < i → resp200 (net (idx + j)) = true) →
    resp200 (net (idx + i)) = false →
    (upload_strips_file_go net total w h t idx strips).2 = .failedAt (idx + i) ∧
    (upload_strips_file_go net total w h t idx strips).1.length = i + 1 := by
  intro strips
  induction strips with
  | nil =>
    intro idx i hi _ _
    exact absurd hi (Nat.not_lt_zero i)
  | cons s rest ih =>
    intro idx i hi hprev hfail
    cases i with
    | zero =>
      rw [Nat.add_zero] at hfail ⊢
      cases hni : net idx with
      | exn =>
        refine ⟨?_, ?_⟩ <;> simp [upload_strips_file_go, hni]
      | resp status body =>
        rw [hni] at hfail
        simp only [resp200] at hfail
        have hc : status ≠ 200 := by simpa using hfail
        refine ⟨?_, ?_⟩ <;> simp [upload_strips_file_go, hni, hc]
    | succ m =>
      have h0 : resp200 (net idx) = true := by
        simpa using hprev 0 (Nat.succ_pos m)
      cases hni : net idx with
      | exn =>
        rw [hni] at h0
        simp [resp200] at h0
      | resp status body =>
        rw [hni] at h0
        have hc : ¬ status ≠ 200 := by
          simp only [resp200, beq_iff_eq] at h0
          simp [h0]
        have IH := ih (idx + 1) m (Nat.lt_of_succ_lt_succ hi)
          (fun j hj => by
            have hx := hprev (j + 1) (Nat.succ_lt_succ hj)
            rwa [show idx + (j + 1) = idx + 1 + j from by omega] at hx)
          (by rwa [show idx + (m + 1) = idx + 1 + m from by omega] at hfail)
        have hg1 : (upload_strips_file_go net total w h t idx (s :: rest)).2
            = (upload_strips_file_go net total w h t (idx + 1) rest).2 := by
          simp [upload_strips_file_go, hni, hc]
        have hg2 : (upload_strips_file_go net total w h t idx (s :: rest)).1.length
            = (upload_strips_file_go net total w h t (idx + 1) rest).1.length + 1 := by
          simp [upload_strips_file_go, hni, hc]
        rw [hg1, hg2, IH.2]
        refine ⟨?_, rfl⟩
        rw [show idx + (m + 1) = idx + 1 + m from by omega]
        exact IH.1

lemma upload_strips_file_go_success (net : Nat → NetResult) (total w h t : Nat) :
    ∀ (strips : List (List Nat)) (idx : Nat),
    (∀ j, j < strips.length → resp200 (net (idx + j)) = true) →
    (upload_strips_file_go net total w h t idx strips).2 = .success ∧
    (upload_strips_file_go net total w h t idx strips).1.length = strips.length := by
  intro strips
  induction strips with
  | nil => intro idx _; exact ⟨rfl, rfl⟩
  | cons s rest ih =>
    intro idx hall
    have h0 : resp200 (net idx) = true := by
      simpa using hall 0 (by simp)
    cases hni : net idx with
    | exn =>
      rw [hni] at h0
      simp [resp200] at h0
    | resp status body =>
      rw [hni] at h0
      have hc : ¬ status ≠ 200 := by
        simp only [resp200, beq_iff_eq] at h0
        simp [h0]
      have IH := ih (idx + 1) (fun j hj => by
        have hx := hall (j + 1) (by simpa using Nat.succ_lt_succ hj)
        rwa [show idx + (j + 1) = idx + 1 + j from by omega] at hx)
      refine ⟨?_, ?_⟩ <;> simp [upload_strips_file_go, hni, hc, IH.1, IH.2]

/-! ## Claim theorems: transfer client -/

/-- C5 (amended): in strip mode, each client posts strips sequentially in
increasing index order with the same fixed `total = len(strips)` on every
request, and the first failing strip aborts the rest — no strip after the
failure is ever sent.  The failure criteria and reports differ per
client.  Camera client (camera_to_esp32.py): a failure is a non-200
status or missing success marker, reported with the failing index, or a
raised exception, reported as a generic error WITHOUT the index (see
`c5_counterexample`).  Standalone tool (upload_image.py): a failure is a
non-200 status or a raised exception, in both cases reported with the
failing index; a 200 response whose body lacks the success marker is
treated as success there and the transfer continues to completion. -/
theorem c5_strip_abort (strips : List (List Nat)) (net netF : Nat → NetResult)
    (w h t i iF : Nat)
    (hi : i < strips.length)
    (hprev : ∀ j, j < i → respOk (net j) = true)
    (hfail : respOk (net i) = false)
    (hiF : iF < strips.length)
    (hprevF : ∀ j, j < iF → resp200 (netF j) = true)
    (hfailF : resp200 (netF iF) = false) :
    ((upload_strips strips net w h t).1.map ChunkRequest.index = List.range' 0 (i + 1) ∧
      (∀ r ∈ (upload_strips strips net w h t).1, r.total = strips.length) ∧
      (upload_strips strips net w h t).2 = failOutcome (net i) i) ∧
    ((upload_strips_file strips netF w h t).1.map ChunkRequest.index
        = List.range' 0 (iF + 1) ∧
      (∀ r ∈ (upload_strips_file strips netF w h t).1, r.total = strips.length) ∧
      (upload_strips_file strips netF w h t).2 = FileStripOutcome.failedAt iF) ∧
    (∀ netG : Nat → NetResult, (∀ j, j < strips.length → resp200 (netG j) = true) →
      (upload_strips_file strips netG w h t).2 = FileStripOutcome.success ∧
      (upload_strips_file strips netG w h t).1.length = strips.length) := by
  refine ⟨?_, ?_, ?_⟩
  · have hzp : ∀ j, j < i → respOk (net (0 + j)) = true := by
      intro j hj
      simpa using hprev j hj
    have hzf : respOk (net (0 + i)) = false := by simpa using hfail
    have HF := upload_strips_go_fail net strips.length w h t strips 0 i hi hzp hzf
    refine ⟨?_, ?_, ?_⟩
    · have HI := upload_strips_go_index_list net strips.length w h t strips 0
      unfold upload_strips
      rw [HI, HF.2]
    · intro r hr
      exact upload_strips_go_total_fields net strips.length w h t strips 0 r hr
    · unfold upload_strips
      simpa using HF.1
  · have hzpF : ∀ j, j < iF → resp200 (netF (0 + j)) = true := by
      intro j hj
      simpa using hprevF j hj
    have hzfF : resp200 (netF (0 + iF)) = false := by simpa using hfailF
    have HF := upload_strips_file_go_fail netF strips.length w h t strips 0 iF hiF hzpF hzfF
    refine ⟨?_, ?_, ?_⟩
    · have HI := upload_strips_file_go_index_list netF strips.length w h t strips 0
      unfold upload_strips_file
      rw [HI, HF.2]
    · intro r hr
      exact upload_strips_file_go_total_fields netF strips.length w h t strips 0 r hr
    · unfold upload_strips_file
      simpa using HF.1
  · intro netG hall
    have HS := upload_strips_file_go_success netG strips.length w h t strips 0
      (fun j hj => by simpa using hall j hj)
    exact HS

/-- C5 counterexample: a raised network exception on strip 0 aborts the
transfer, but the reported outcome is the generic `netError` — not a
rejection carrying the failing index, contrary to the claim that every
failure mode identifies index i. -/
theorem c5_counterexample :
    (upload_strips [[0]] (fun _ => NetResult.exn) 240 280 10).2 = StripOutcome.netError ∧
    StripOutcome.netError ≠ StripOutcome.rejected 0 := by
  exact ⟨rfl, by decide⟩

/-- Witness for `c5_strip_abort`: three strips; the camera client sees
HTTP 500 on index 2, the standalone tool sees markerless 200 on index 0
and an exception on index 1. -/
theorem c5_witness :
    (2 < 3 ∧ (∀ j, j < 2 → respOk (c5net j) = true) ∧ respOk (c5net 2) = false ∧
      1 < 3 ∧ (∀ j, j < 1 → resp200 (c5netF j) = true) ∧ resp200 (c5netF 1) = false) ∧
    (((upload_strips [[1], [2], [3]] c5net 240 280 10).1.map ChunkRequest.index
        = List.range' 0 (2 + 1) ∧
      (∀ r ∈ (upload_strips [[1], [2], [3]] c5net 240 280 10).1,
        r.total = ([[1], [2], [3]] : List (List Nat)).length) ∧
      (upload_strips [[1], [2], [3]] c5net 240 280 10).2 = failOutcome (c5net 2) 2) ∧
    ((upload_strips_file [[1], [2], [3]] c5netF 240 280 10).1.map ChunkRequest.index
        = List.range' 0 (1 + 1) ∧
      (∀ r ∈ (upload_strips_file [[1], [2], [3]] c5netF 240 280 10).1,
        r.total = ([[1], [2], [3]] : List (List Nat)).length) ∧
      (upload_strips_file [[1], [2], [3]] c5netF 240 280 10).2
        = FileStripOutcome.failedAt 1) ∧
    (∀ netG : Nat → NetResult,
      (∀ j, j < ([[1], [2], [3]] : List (List Nat)).length → resp200 (netG j) = true) →
      (upload_strips_file [[1], [2], [3]] netG 240 280 10).2 = FileStripOutcome.success ∧
      (upload_strips_file [[1], [2], [3]] netG 240 280 10).1.length
        = ([[1], [2], [3]] : List (List Nat)).length)) :=
  ⟨⟨by decide, by decide, by decide, by decide, by decide, by decide⟩,
    c5_strip_abort [[1], [2], [3]] c5net c5netF 240 280 10 2 1
      (by decide) (by decide) (by decide) (by decide) (by decide) (by decide)⟩

/-- C6 (amended): the camera client's single-shot upload reports success
exactly when the device answered HTTP 200 with a body containing
`"success":true`; the standalone tool's single-file upload reports
success exactly when the status is 200, with no marker check (see
`c6_counterexample`). -/
theorem c6_single_success_criteria (net : NetResult) :
    (upload_single net = true
      ↔ ∃ body, net = NetResult.resp 200 body ∧ hasSuccess body = true) ∧
    (upload_single_file net = true ↔ ∃ body, net = NetResult.resp 200 body) := by
  cases net with
  | exn => simp [upload_single, upload_single_file]
  | resp status body =>
    constructor
    · simp only [upload_single, Bool.and_eq_true, beq_iff_eq]
      constructor
      · rintro ⟨rfl, hb⟩
        exact ⟨body, rfl, hb⟩
      · rintro ⟨b2, heq, hb⟩
        injection heq with h1 h2
        subst h1
        subst h2
        exact ⟨rfl, hb⟩
    · simp only [upload_single_file, beq_iff_eq]
      constructor
      · rintro rfl
        exact ⟨body, rfl⟩
      · rintro ⟨b2, heq⟩
        injection heq with h1 h2

/-- C6 counterexample: the standalone tool's single-file upload reports
success on a bare HTTP 200 whose body does NOT contain the
`"success":true` marker, so "success iff 200 AND marker" fails for that
uploader. -/
theorem c6_counterexample :
    upload_single_file (NetResult.resp 200 []) = true ∧ hasSuccess [] = false := by
  exact ⟨rfl, by decide⟩

/-! ## Claim theorems: image preparation -/

/-- C2: whenever `prepare_image` returns an image and the panel target
has positive dimensions, the returned image is exactly target-sized —
the returned canvas is the letterbox background, independent of source
dimensions, aspect ratio or rotation. -/
theorem c2_prepared_matches_target (src : PILImage) (tw th : Nat) (rot : RotatePolicy)
    (htw : 0 < tw) (hth : 0 < th) (out : PILImage)
    (hout : prepare_image src tw th rot = some out) :
    out.width = tw ∧ out.height = th := by
  unfold prepare_image scaleStage at hout
  rw [if_pos ⟨Nat.pos_iff_ne_zero.mp htw, Nat.pos_iff_ne_zero.mp hth⟩] at hout
  split at hout
  · cases hout
  · simp only [paste] at hout
    cases hout
    exact ⟨rfl, rfl⟩

/-- Witness for `c2_prepared_matches_target`: a 100×50 landscape source
prepared for a 240×280 portrait panel under auto rotation. -/
theorem c2_witness :
    (0 < 240 ∧ 0 < 280) ∧
    ((⟨240, 280⟩ : PILImage).width = 240 ∧ (⟨240, 280⟩ : PILImage).height = 280) :=
  ⟨⟨by decide, by decide⟩,
    c2_prepared_matches_target ⟨100, 50⟩ 240 280 .auto (by decide) (by decide) ⟨240, 280⟩
      (by simp [prepare_image, scaleStage, rotateStage, paste])⟩

/-- C8: under the Auto policy and a positive-dimension panel target, the
image is rotated (dimensions swapped) exactly when the source is
landscape and the target is portrait; otherwise it is left unchanged.
The scaling stage then consumes the dimensions as re-read after the
rotation stage. -/
theorem c8_auto_rotation (src : PILImage) (tw th : Nat) (htw : 0 < tw) (hth : 0 < th) :
    (src.width > src.height ∧ th > tw →
      rotateStage src tw th .auto = ⟨src.height, src.width⟩) ∧
    (¬(src.width > src.height ∧ th > tw) → rotateStage src tw th .auto = src) ∧
    prepare_image src tw th .auto = scaleStage (rotateStage src tw th .auto) tw th := by
  refine ⟨?_, ?_, rfl⟩
  · intro hcond
    simp only [rotateStage]
    rw [if_pos ⟨Nat.pos_iff_ne_zero.mp htw, Nat.pos_iff_ne_zero.mp hth⟩, if_pos hcond]
  · intro hcond
    simp only [rotateStage]
    rw [if_pos ⟨Nat.pos_iff_ne_zero.mp htw, Nat.pos_iff_ne_zero.mp hth⟩, if_neg hcond]

/-- Witness for `c8_auto_rotation`: a 100×50 landscape source against a
240×280 portrait panel. -/
theorem c8_witness :
    (0 < 240 ∧ 0 < 280) ∧
    (((⟨100, 50⟩ : PILImage).width > (⟨100, 50⟩ : PILImage).height ∧ 280 > 240 →
      rotateStage ⟨100, 50⟩ 240 280 .auto = ⟨50, 100⟩) ∧
    (¬((⟨100, 50⟩ : PILImage).width > (⟨100, 50⟩ : PILImage).height ∧ 280 > 240) →
      rotateStage ⟨100, 50⟩ 240 280 .auto = ⟨100, 50⟩) ∧
    prepare_image ⟨100, 50⟩ 240 280 .auto
      = scaleStage (rotateStage ⟨100, 50⟩ 240 280 .auto) 240 280) :=
  ⟨⟨by decide, by decide⟩, c8_auto_rotation ⟨100, 50⟩ 240 280 (by decide) (by decide)⟩

end Esp32Tools
